import Mathlib

/-!
Verification of the schema-driven query compilation and CRUD engine of the
hireach-orm-d1-rest package.  The definitions below are shallow embeddings of
the TypeScript sources: `QueryBuilder.ts` (query AST builder, error
classifier, aggregate operations), `Schema` (field definitions and record
validation), `CrudOperations.ts` (create/update pipelines) and
`UpsertOperations.ts` (find-or-create with race recovery).
-/

set_option maxRecDepth 10000

namespace D1

/-- A SQL-bindable JavaScript value as it flows through the ORM: strings,
(integer) numbers, booleans, `null`, and `undefined` (JS `undefined` can end
up pushed into a parameter list by `buildWhereCondition`'s default branch). -/
inductive Value where
  | str (s : String)
  | num (n : Int)
  | bool (b : Bool)
  | null
  | undef
deriving DecidableEq

/-- JavaScript truthiness of a `Value` (`""`, `0`, `false`, `null`,
`undefined` are falsy). -/
def Value.truthy : Value → Bool
  | .str s => s ≠ ""
  | .num n => n ≠ 0
  | .bool b => b
  | .null => false
  | .undef => false

/-- A record is a JS object: an insertion-ordered association list from field
name to (defined) value. -/
abbrev Record := List (String × Value)

/-- `record[key]`: `none` models JS `undefined` (absent key). -/
def getKey (r : Record) (k : String) : Option Value :=
  (r.find? (fun p => p.1 = k)).map (·.2)

/-- `record[key] = v`: overwrite in place if the key exists (JS objects keep
the original insertion position), otherwise append. -/
def setKey (r : Record) (k : String) (v : Value) : Record :=
  if r.any (fun p => p.1 = k) then
    r.map (fun p => if p.1 = k then (k, v) else p)
  else
    r ++ [(k, v)]

/-- `delete record[key]`. -/
def eraseKey (r : Record) (k : String) : Record :=
  r.filter (fun p => p.1 ≠ k)

/-- JavaScript `Array.prototype.join(sep)` on an array of strings. -/
def arrJoin (sep : String) : List String → String
  | [] => ""
  | [x] => x
  | x :: xs => x ++ sep ++ arrJoin sep xs

/-- The `WhereOperator` union type of `QueryBuilder.ts`. -/
inductive WhereOperator where
  | eq | ne | gt | lt | ge | le | like | notLike
  | inOp | notIn | between | isNull | isNotNull
deriving DecidableEq

/-- The SQL spelling of each operator, exactly the string literals of the
TypeScript union type. -/
def WhereOperator.sqlName : WhereOperator → String
  | .eq => "="
  | .ne => "!="
  | .gt => ">"
  | .lt => "<"
  | .ge => ">="
  | .le => "<="
  | .like => "LIKE"
  | .notLike => "NOT LIKE"
  | .inOp => "IN"
  | .notIn => "NOT IN"
  | .between => "BETWEEN"
  | .isNull => "IS NULL"
  | .isNotNull => "IS NOT NULL"

/-- `WhereCondition` of `QueryBuilder.ts`: `value` is optional, `values` is
the optional list used by IN / NOT IN / BETWEEN. -/
structure WhereCondition where
  field : String
  operator : WhereOperator
  value : Option Value := none
  values : Option (List Value) := none
deriving DecidableEq

inductive JoinType where
  | inner | left | right | full
deriving DecidableEq

def JoinType.sqlName : JoinType → String
  | .inner => "INNER"
  | .left => "LEFT"
  | .right => "RIGHT"
  | .full => "FULL"

/-- `JoinCondition` of `QueryBuilder.ts` (`on` is a Lean keyword, so the
`on` property is named `onClause` here). -/
structure JoinCondition where
  type : JoinType
  table : String
  onClause : String
  tableAlias : Option String := none
deriving DecidableEq

inductive OrderDirection where
  | asc | desc
deriving DecidableEq

def OrderDirection.sqlName : OrderDirection → String
  | .asc => "ASC"
  | .desc => "DESC"

structure OrderByCondition where
  field : String
  direction : OrderDirection
deriving DecidableEq

/-- The mutable builder state of class `QueryBuilder` (its private fields). -/
structure QueryBuilder where
  _select : List String := ["*"]
  _from : String := ""
  _where : List WhereCondition := []
  _joins : List JoinCondition := []
  _orderBy : List OrderByCondition := []
  _groupBy : List String := []
  _having : List WhereCondition := []
  _limit : Option Int := none
  _offset : Option Int := none
  _distinct : Bool := false
deriving DecidableEq

namespace QueryBuilder

/-- `new QueryBuilder(tableName)` / `QueryBuilder.create(tableName)`. -/
def create (tableName : String) : QueryBuilder := { _from := tableName }

/-- `from(tableName)` (`from` is a Lean keyword). -/
def fromTable (qb : QueryBuilder) (tableName : String) : QueryBuilder :=
  { qb with _from := tableName }

/-- `select(...fields)`: an empty argument list resets to `['*']`. -/
def select (qb : QueryBuilder) (fields : List String) : QueryBuilder :=
  { qb with _select := if fields.length > 0 then fields else ["*"] }

def distinct (qb : QueryBuilder) : QueryBuilder :=
  { qb with _distinct := true }

/-- `where(field, operator, value?)` (named `whereC` because `where` is a
Lean keyword). -/
def whereC (qb : QueryBuilder) (field : String) (operator : WhereOperator)
    (value : Option Value := none) : QueryBuilder :=
  { qb with _where := qb._where ++ [{ field, operator, value }] }

def whereIn (qb : QueryBuilder) (field : String) (values : List Value) : QueryBuilder :=
  { qb with _where := qb._where ++ [{ field, operator := .inOp, values := some values }] }

def whereNotIn (qb : QueryBuilder) (field : String) (values : List Value) : QueryBuilder :=
  { qb with _where := qb._where ++ [{ field, operator := .notIn, values := some values }] }

def whereBetween (qb : QueryBuilder) (field : String) (min max : Value) : QueryBuilder :=
  { qb with _where := qb._where ++ [{ field, operator := .between, values := some [min, max] }] }

def whereNull (qb : QueryBuilder) (field : String) : QueryBuilder :=
  { qb with _where := qb._where ++ [{ field, operator := .isNull }] }

def whereNotNull (qb : QueryBuilder) (field : String) : QueryBuilder :=
  { qb with _where := qb._where ++ [{ field, operator := .isNotNull }] }

def whereLike (qb : QueryBuilder) (field : String) (pattern : String) : QueryBuilder :=
  { qb with _where := qb._where ++ [{ field, operator := .like, value := some (.str pattern) }] }

def join (qb : QueryBuilder) (table onClause : String) (type : JoinType := .inner)
    (tableAlias : Option String := none) : QueryBuilder :=
  { qb with _joins := qb._joins ++ [{ type, table, onClause, tableAlias }] }

def orderBy (qb : QueryBuilder) (field : String)
    (direction : OrderDirection := .asc) : QueryBuilder :=
  { qb with _orderBy := qb._orderBy ++ [{ field, direction }] }

def groupBy (qb : QueryBuilder) (fields : List String) : QueryBuilder :=
  { qb with _groupBy := qb._groupBy ++ fields }

def having (qb : QueryBuilder) (field : String) (operator : WhereOperator)
    (value : Option Value := none) : QueryBuilder :=
  { qb with _having := qb._having ++ [{ field, operator, value }] }

def limit (qb : QueryBuilder) (count : Int) : QueryBuilder :=
  { qb with _limit := some count }

def offset (qb : QueryBuilder) (count : Int) : QueryBuilder :=
  { qb with _offset := some count }

def paginate (qb : QueryBuilder) (page perPage : Int) : QueryBuilder :=
  { qb with _limit := some perPage, _offset := some ((page - 1) * perPage) }

/-- The `{ sql, params }` pair returned by the compile methods. -/
structure BuildResult where
  sql : String
  params : List Value
deriving DecidableEq

/-- `buildWhereCondition(condition, params)`: the TypeScript method returns
the condition fragment and pushes the bound values onto `params`; here it
returns the fragment together with the list of values it appends.  Empty
IN / NOT IN lists and BETWEEN lists of length other than two compile to the
fail-closed literal `1=0` with no parameters. -/
def buildWhereCondition (c : WhereCondition) : String × List Value :=
  match c.operator with
  | .isNull | .isNotNull =>
      (c.field ++ " " ++ c.operator.sqlName, [])
  | .inOp | .notIn =>
      match c.values with
      | some vs =>
          if vs.length > 0 then
            (c.field ++ " " ++ c.operator.sqlName ++ " (" ++
              arrJoin ", " (vs.map (fun _ => "?")) ++ ")", vs)
          else ("1=0", [])
      | none => ("1=0", [])
  | .between =>
      match c.values with
      | some vs =>
          if h : vs.length = 2 then
            (c.field ++ " " ++ c.operator.sqlName ++ " ? AND ?",
              [vs.get ⟨0, by omega⟩, vs.get ⟨1, by omega⟩])
          else ("1=0", [])
      | none => ("1=0", [])
  | _ =>
      (c.field ++ " " ++ c.operator.sqlName ++ " ?", [c.value.getD .undef])

/-- The parameters contributed by a list of conditions, in left-to-right
order (the TypeScript pushes onto `params` while mapping the conditions). -/
def whereParams (cs : List WhereCondition) : List Value :=
  cs.flatMap (fun c => (buildWhereCondition c).2)

/-- ` WHERE <cond AND cond ...>`, empty when there are no conditions. -/
def whereClauseStr (cs : List WhereCondition) : String :=
  if cs.isEmpty then ""
  else " WHERE " ++ arrJoin " AND " (cs.map (fun c => (buildWhereCondition c).1))

/-- ` HAVING <cond AND cond ...>`, empty when there are no conditions. -/
def havingClauseStr (cs : List WhereCondition) : String :=
  if cs.isEmpty then ""
  else " HAVING " ++ arrJoin " AND " (cs.map (fun c => (buildWhereCondition c).1))

/-- One ` <TYPE> JOIN <table [AS tableAlias]> ON <on>` fragment. -/
def joinClauseStr (j : JoinCondition) : String :=
  " " ++ j.type.sqlName ++ " JOIN " ++
    (match j.tableAlias with
     | some a => j.table ++ " AS " ++ a
     | none => j.table) ++ " ON " ++ j.onClause

def joinsStr (js : List JoinCondition) : String :=
  String.join (js.map joinClauseStr)

def groupByStr (gs : List String) : String :=
  if gs.isEmpty then "" else " GROUP BY " ++ arrJoin ", " gs

def orderByStr (os : List OrderByCondition) : String :=
  if os.isEmpty then ""
  else " ORDER BY " ++
    arrJoin ", " (os.map (fun o => o.field ++ " " ++ o.direction.sqlName))

def limitStr (l : Option Int) : String :=
  match l with
  | some n => " LIMIT " ++ toString n
  | none => ""

def offsetStr (o : Option Int) : String :=
  match o with
  | some n => " OFFSET " ++ toString n
  | none => ""

/-- `build()`: SELECT [DISTINCT] cols FROM table JOINs WHERE GROUP BY HAVING
ORDER BY LIMIT OFFSET; parameters are pushed first by the WHERE conditions,
then by the HAVING conditions. -/
def build (qb : QueryBuilder) : BuildResult :=
  { sql :=
      "SELECT " ++ (if qb._distinct then "DISTINCT " else "") ++
        arrJoin ", " qb._select ++
      (if qb._from ≠ "" then " FROM " ++ qb._from else "") ++
      joinsStr qb._joins ++
      whereClauseStr qb._where ++
      groupByStr qb._groupBy ++
      havingClauseStr qb._having ++
      orderByStr qb._orderBy ++
      limitStr qb._limit ++
      offsetStr qb._offset,
    params := whereParams qb._where ++ whereParams qb._having }

/-- The method view of `build()`: a TypeScript method takes the receiver and
returns the result together with the (possibly mutated) receiver.  The body
of `build()` contains no assignment to any `this._*` field, so the returned
state is the input state unchanged. -/
def buildM (qb : QueryBuilder) : BuildResult × QueryBuilder :=
  (build qb, qb)

/-- `buildCount()`. -/
def buildCount (qb : QueryBuilder) : BuildResult :=
  { sql :=
      "SELECT COUNT(*) as count FROM " ++ qb._from ++
      joinsStr qb._joins ++
      whereClauseStr qb._where ++
      groupByStr qb._groupBy ++
      havingClauseStr qb._having,
    params := whereParams qb._where ++ whereParams qb._having }

/-- `buildDelete()`. -/
def buildDelete (qb : QueryBuilder) : BuildResult :=
  { sql := "DELETE FROM " ++ qb._from ++ whereClauseStr qb._where,
    params := whereParams qb._where }

/-- `buildUpdate(data)`: entries whose value is `undefined` (modelled as
`none`) are skipped; raises `No fields to update` when no assignable field
remains; SET parameters precede the WHERE parameters. -/
def buildUpdate (qb : QueryBuilder) (data : List (String × Option Value)) :
    Except String BuildResult :=
  let setClause := (data.filter (fun p => p.2.isSome)).map (fun p => p.1 ++ " = ?")
  let setParams := data.filterMap Prod.snd
  if setClause.isEmpty then .error "No fields to update"
  else .ok
    { sql := "UPDATE " ++ qb._from ++ " SET " ++ arrJoin ", " setClause ++
        whereClauseStr qb._where,
      params := setParams ++ whereParams qb._where }

end QueryBuilder

/-! ### Placeholder counting -/

/-- The number of `?` placeholders in a piece of SQL text. -/
def countQ (s : String) : Nat := s.data.count '?'

theorem countQ_append (s t : String) : countQ (s ++ t) = countQ s + countQ t := by
  simp [countQ, String.data_append, List.count_append]

theorem countQ_arrJoin (sep : String) (hsep : countQ sep = 0) (l : List String) :
    countQ (arrJoin sep l) = (l.map countQ).sum := by
  induction l with
  | nil => simp [arrJoin, countQ]
  | cons x xs ih =>
    cases xs with
    | nil => simp [arrJoin]
    | cons y ys =>
      simp only [arrJoin, countQ_append, hsep, List.map_cons, List.sum_cons] at ih ⊢
      omega

theorem digitChar_big (m : Nat) (h : 16 ≤ m) : Nat.digitChar m = '*' := by
  unfold Nat.digitChar
  repeat rw [if_neg (show ¬ _ = _ by omega)]

theorem digitChar_ne_qmark (m : Nat) : Nat.digitChar m ≠ '?' := by
  by_cases h : m < 16
  · interval_cases m <;> decide
  · rw [digitChar_big m (by omega)]; decide

theorem toDigitsCore_no_qmark (b fuel n : Nat) (acc : List Char)
    (hacc : '?' ∉ acc) : '?' ∉ Nat.toDigitsCore b fuel n acc := by
  induction fuel generalizing n acc with
  | zero => simpa [Nat.toDigitsCore] using hacc
  | succ f ih =>
    have hd : '?' ∉ Nat.digitChar (n % b) :: acc := by
      intro hmem
      rcases List.mem_cons.mp hmem with h | h
      · exact digitChar_ne_qmark _ h.symm
      · exact hacc h
    simp only [Nat.toDigitsCore]
    split
    · exact hd
    · exact ih _ _ hd

theorem countQ_natRepr (n : Nat) : countQ (Nat.repr n) = 0 := by
  have h : '?' ∉ Nat.toDigits 10 n :=
    toDigitsCore_no_qmark _ _ _ _ (by simp)
  simpa [countQ, Nat.repr, Nat.toDigits, List.asString] using List.count_eq_zero.mpr h

theorem countQ_intToString (n : Int) : countQ (toString n) = 0 := by
  show countQ n.repr = 0
  cases n with
  | ofNat m => simpa [Int.repr] using countQ_natRepr m
  | negSucc m =>
    have : countQ ("-" ++ Nat.repr (m + 1)) = countQ "-" + countQ (Nat.repr (m + 1)) :=
      countQ_append _ _
    simp [Int.repr, this, countQ_natRepr]
    decide

namespace QueryBuilder

theorem countQ_opName (op : WhereOperator) : countQ op.sqlName = 0 := by
  cases op <;> decide

theorem countQ_placeholders (vs : List Value) :
    countQ (arrJoin ", " (vs.map fun _ => "?")) = vs.length := by
  rw [countQ_arrJoin _ (by decide), List.map_const', List.map_replicate,
    (by decide : countQ "?" = 1), List.sum_replicate, smul_eq_mul, mul_one]

theorem countQ_buildWhereCondition (c : WhereCondition) (h : countQ c.field = 0) :
    countQ (buildWhereCondition c).1 = (buildWhereCondition c).2.length := by
  obtain ⟨field, operator, value, values⟩ := c
  simp only at h
  have e1 : countQ " " = 0 := by decide
  have e2 : countQ " (" = 0 := by decide
  have e3 : countQ ")" = 0 := by decide
  have e4 : countQ " ?" = 1 := by decide
  have e5 : countQ " ? AND ?" = 2 := by decide
  cases operator
  case isNull | isNotNull =>
    simp only [buildWhereCondition]
    rw [countQ_append, countQ_append, h, countQ_opName, e1]
    simp
  case eq | ne | gt | lt | ge | le | like | notLike =>
    simp only [buildWhereCondition]
    rw [countQ_append, countQ_append, countQ_append, h, countQ_opName, e1, e4]
    simp
  case inOp | notIn =>
    cases values with
    | none => simp only [buildWhereCondition]; decide
    | some vs =>
      simp only [buildWhereCondition]
      split
      · rw [countQ_append, countQ_append, countQ_append, countQ_append, countQ_append,
          h, countQ_opName, countQ_placeholders, e1, e2, e3]
        simp
      · decide
  case between =>
    cases values with
    | none => simp only [buildWhereCondition]; decide
    | some vs =>
      simp only [buildWhereCondition]
      split
      · rw [countQ_append, countQ_append, countQ_append, h, countQ_opName, e1, e5]
        simp
      · decide

theorem countQ_whereFrags (cs : List WhereCondition)
    (h : ∀ c ∈ cs, countQ c.field = 0) :
    countQ (arrJoin " AND " (cs.map (fun c => (buildWhereCondition c).1))) =
      (whereParams cs).length := by
  rw [countQ_arrJoin _ (by decide), whereParams, List.length_flatMap, List.map_map]
  exact congrArg List.sum (List.map_congr_left fun c hc => by
    simpa [Function.comp] using countQ_buildWhereCondition c (h c hc))

theorem countQ_whereClauseStr (cs : List WhereCondition)
    (h : ∀ c ∈ cs, countQ c.field = 0) :
    countQ (whereClauseStr cs) = (whereParams cs).length := by
  rw [whereClauseStr]
  split
  · next he => simp_all [whereParams, List.isEmpty_iff.mp he, countQ]
  · rw [countQ_append, countQ_whereFrags cs h]
    have e : countQ " WHERE " = 0 := by decide
    omega

theorem countQ_havingClauseStr (cs : List WhereCondition)
    (h : ∀ c ∈ cs, countQ c.field = 0) :
    countQ (havingClauseStr cs) = (whereParams cs).length := by
  rw [havingClauseStr]
  split
  · next he => simp_all [whereParams, List.isEmpty_iff.mp he, countQ]
  · rw [countQ_append, countQ_whereFrags cs h]
    have e : countQ " HAVING " = 0 := by decide
    omega

theorem countQ_joinClauseStr (j : JoinCondition) (ht : countQ j.table = 0)
    (ho : countQ j.onClause = 0)
    (ha : ∀ a, j.tableAlias = some a → countQ a = 0) :
    countQ (joinClauseStr j) = 0 := by
  cases j with
  | mk type table onClause tableAlias =>
    simp only at ht ho
    cases tableAlias with
    | none =>
      have := countQ_opName
      simp [joinClauseStr, countQ_append, ht, ho]
      cases type <;> decide
    | some a =>
      have haa := ha a rfl
      simp only at haa
      simp [joinClauseStr, countQ_append, ht, ho, haa]
      cases type <;> decide

theorem countQ_foldl_append (l : List String) (acc : String) :
    countQ (l.foldl (· ++ ·) acc) = countQ acc + (l.map countQ).sum := by
  induction l generalizing acc with
  | nil => simp
  | cons x xs ih => simp [ih, countQ_append]; omega

theorem countQ_joinsStr (js : List JoinCondition)
    (h : ∀ j ∈ js, countQ j.table = 0 ∧ countQ j.onClause = 0 ∧
        ∀ a, j.tableAlias = some a → countQ a = 0) :
    countQ (joinsStr js) = 0 := by
  rw [joinsStr, String.join, countQ_foldl_append]
  have : ∀ j ∈ js, (countQ ∘ joinClauseStr) j = 0 := fun j hj => by
    obtain ⟨ht, ho, ha⟩ := h j hj
    simpa [Function.comp] using countQ_joinClauseStr j ht ho ha
  rw [List.map_map, List.map_congr_left this]
  simp [countQ]

theorem countQ_groupByStr (gs : List String) (h : ∀ g ∈ gs, countQ g = 0) :
    countQ (groupByStr gs) = 0 := by
  rw [groupByStr]
  split
  · decide
  · rw [countQ_append, countQ_arrJoin _ (by decide), List.map_congr_left h]
    simp [countQ]

theorem countQ_orderByStr (os : List OrderByCondition)
    (h : ∀ o ∈ os, countQ o.field = 0) :
    countQ (orderByStr os) = 0 := by
  rw [orderByStr]
  split
  · decide
  · rw [countQ_append, countQ_arrJoin _ (by decide)]
    have : ∀ o ∈ os, countQ (o.field ++ " " ++ o.direction.sqlName) = 0 := fun o ho => by
      rw [countQ_append, countQ_append, h o ho]
      cases o.direction <;> decide
    rw [List.map_map, List.map_congr_left (fun o ho => by
      simpa [Function.comp] using this o ho)]
    simp [countQ]

theorem countQ_limitStr (l : Option Int) : countQ (limitStr l) = 0 := by
  cases l with
  | none => decide
  | some n => rw [limitStr, countQ_append, countQ_intToString]; decide

theorem countQ_offsetStr (o : Option Int) : countQ (offsetStr o) = 0 := by
  cases o with
  | none => decide
  | some n => rw [offsetStr, countQ_append, countQ_intToString]; decide

/-- No user-supplied identifier in the builder contains a literal question
mark: column and table names, join ON expressions, aliases, ORDER BY and
GROUP BY fields are SQL identifiers, never bound values. -/
def Clean (qb : QueryBuilder) : Prop :=
  (∀ s ∈ qb._select, countQ s = 0) ∧
  countQ qb._from = 0 ∧
  (∀ c ∈ qb._where, countQ c.field = 0) ∧
  (∀ j ∈ qb._joins, countQ j.table = 0 ∧ countQ j.onClause = 0 ∧
      ∀ a, j.tableAlias = some a → countQ a = 0) ∧
  (∀ o ∈ qb._orderBy, countQ o.field = 0) ∧
  (∀ g ∈ qb._groupBy, countQ g = 0) ∧
  (∀ c ∈ qb._having, countQ c.field = 0)

instance (qb : QueryBuilder) : Decidable (Clean qb) := by
  unfold Clean; infer_instance

theorem countQ_selectList (l : List String) (h : ∀ s ∈ l, countQ s = 0) :
    countQ (arrJoin ", " l) = 0 := by
  rw [countQ_arrJoin _ (by decide), List.map_congr_left h]
  simp [countQ]

theorem length_filterMap_snd (data : List (String × Option Value)) :
    (data.filterMap Prod.snd).length =
      (data.filter (fun p => p.2.isSome)).length := by
  induction data with
  | nil => rfl
  | cons p ps ih =>
    obtain ⟨k, v⟩ := p
    cases v <;> simp [List.filterMap_cons, List.filter_cons, ih]

theorem countQ_setClause (data : List (String × Option Value))
    (h : ∀ p ∈ data, countQ p.1 = 0) :
    countQ (arrJoin ", "
        ((data.filter (fun p => p.2.isSome)).map (fun p => p.1 ++ " = ?"))) =
      (data.filterMap Prod.snd).length := by
  rw [countQ_arrJoin _ (by decide), List.map_map, length_filterMap_snd]
  have hone : ∀ p ∈ data.filter (fun p => p.2.isSome),
      (countQ ∘ fun p => p.1 ++ " = ?") p = 1 := by
    intro p hp
    have hk := h p (List.mem_of_mem_filter hp)
    simp [Function.comp, countQ_append, hk]
    decide
  rw [List.map_congr_left hone]
  simp

theorem countQ_build (qb : QueryBuilder) (h : Clean qb) :
    countQ (build qb).sql = (build qb).params.length := by
  obtain ⟨hsel, hfrom, hwhere, hjoins, horder, hgroup, hhaving⟩ := h
  have h1 : countQ "SELECT " = 0 := by decide
  have h2 : countQ (if qb._distinct then "DISTINCT " else "") = 0 := by
    split <;> decide
  have h3 := countQ_selectList qb._select hsel
  have h4 : countQ (if qb._from ≠ "" then " FROM " ++ qb._from else "") = 0 := by
    split
    · rw [countQ_append, hfrom]; decide
    · decide
  have h5 := countQ_joinsStr qb._joins hjoins
  have h6 := countQ_whereClauseStr qb._where hwhere
  have h7 := countQ_groupByStr qb._groupBy hgroup
  have h8 := countQ_havingClauseStr qb._having hhaving
  have h9 := countQ_orderByStr qb._orderBy horder
  have h10 := countQ_limitStr qb._limit
  have h11 := countQ_offsetStr qb._offset
  show countQ (_ ++ _ ++ _ ++ _ ++ _ ++ _ ++ _ ++ _ ++ _ ++ _ ++ _) = _
  rw [countQ_append, countQ_append, countQ_append, countQ_append, countQ_append,
    countQ_append, countQ_append, countQ_append, countQ_append, countQ_append,
    h1, h2, h3, h4, h5, h6, h7, h8, h9, h10, h11]
  show _ = (whereParams qb._where ++ whereParams qb._having).length
  rw [List.length_append]
  omega

theorem countQ_buildCount (qb : QueryBuilder) (h : Clean qb) :
    countQ (buildCount qb).sql = (buildCount qb).params.length := by
  obtain ⟨hsel, hfrom, hwhere, hjoins, horder, hgroup, hhaving⟩ := h
  have h1 : countQ "SELECT COUNT(*) as count FROM " = 0 := by decide
  have h5 := countQ_joinsStr qb._joins hjoins
  have h6 := countQ_whereClauseStr qb._where hwhere
  have h7 := countQ_groupByStr qb._groupBy hgroup
  have h8 := countQ_havingClauseStr qb._having hhaving
  show countQ (_ ++ _ ++ _ ++ _ ++ _ ++ _) = _
  rw [countQ_append, countQ_append, countQ_append, countQ_append, countQ_append,
    h1, hfrom, h5, h6, h7, h8]
  show _ = (whereParams qb._where ++ whereParams qb._having).length
  rw [List.length_append]
  omega

theorem countQ_buildDelete (qb : QueryBuilder) (h : Clean qb) :
    countQ (buildDelete qb).sql = (buildDelete qb).params.length := by
  obtain ⟨hsel, hfrom, hwhere, hjoins, horder, hgroup, hhaving⟩ := h
  have h1 : countQ "DELETE FROM " = 0 := by decide
  have h6 := countQ_whereClauseStr qb._where hwhere
  show countQ (_ ++ _ ++ _) = _
  rw [countQ_append, countQ_append, h1, hfrom, h6]
  show _ = (whereParams qb._where).length
  omega

theorem countQ_buildUpdate (qb : QueryBuilder) (h : Clean qb)
    (data : List (String × Option Value)) (r : BuildResult)
    (hkeys : ∀ p ∈ data, countQ p.1 = 0)
    (hok : buildUpdate qb data = .ok r) :
    countQ r.sql = r.params.length := by
  obtain ⟨hsel, hfrom, hwhere, hjoins, horder, hgroup, hhaving⟩ := h
  rw [buildUpdate] at hok
  split at hok
  · exact absurd hok (by simp)
  · have hr := (Except.ok.injEq _ _).mp hok
    subst hr
    have h1 : countQ "UPDATE " = 0 := by decide
    have h2 : countQ " SET " = 0 := by decide
    have h3 := countQ_setClause data hkeys
    have h6 := countQ_whereClauseStr qb._where hwhere
    show countQ (_ ++ _ ++ _ ++ _ ++ _) = _
    rw [countQ_append, countQ_append, countQ_append, countQ_append,
      h1, hfrom, h2, h3, h6]
    show _ = (data.filterMap Prod.snd ++ whereParams qb._where).length
    rw [List.length_append]
    omega

end QueryBuilder

/-- C1: for every builder state whose identifiers are placeholder-free, the
number of `?` placeholders in the SQL compiled by `build`, `buildCount`,
`buildDelete`, and (when it does not raise) `buildUpdate` equals the length
of the produced parameter list. -/
theorem placeholder_parity (qb : QueryBuilder) (h : qb.Clean) :
    countQ (qb.build).sql = (qb.build).params.length ∧
    countQ (qb.buildCount).sql = (qb.buildCount).params.length ∧
    countQ (qb.buildDelete).sql = (qb.buildDelete).params.length ∧
    ∀ (data : List (String × Option Value)) (r : QueryBuilder.BuildResult),
      (∀ p ∈ data, countQ p.1 = 0) →
      qb.buildUpdate data = .ok r →
      countQ r.sql = r.params.length :=
  ⟨QueryBuilder.countQ_build qb h, QueryBuilder.countQ_buildCount qb h,
   QueryBuilder.countQ_buildDelete qb h,
   fun data r hkeys hok => QueryBuilder.countQ_buildUpdate qb h data r hkeys hok⟩

/-- Witness for C1 at a concrete builder exercising a representative mix of
fluent calls. -/
theorem placeholder_parity_witness :
    let qb :=
      ((((((QueryBuilder.create "users").select ["id", "name"]).whereC "age" .ge
          (some (.num 18))).whereIn "status" [.str "a", .str "b"]).whereBetween
          "score" (.num 1) (.num 10)).orderBy "name").limit 5
    countQ (qb.build).sql = (qb.build).params.length ∧
    ∀ r, qb.buildUpdate [("name", some (.str "x")), ("skip", none)] = .ok r →
      countQ r.sql = r.params.length := by
  intro qb
  have hclean : qb.Clean := by decide
  refine ⟨(placeholder_parity qb hclean).1, fun r hok => ?_⟩
  exact (placeholder_parity qb hclean).2.2.2 _ r (by decide) hok

/-- C8: `build()` reads but never assigns the builder state: the method view
returns the receiver unchanged, so a second `build()` on an unmutated
builder returns the identical `(sql, params)` pair. -/
theorem build_idempotent (qb : QueryBuilder) :
    (QueryBuilder.buildM qb).2 = qb ∧
    (QueryBuilder.buildM ((QueryBuilder.buildM qb).2)).1 = (QueryBuilder.buildM qb).1 :=
  ⟨rfl, rfl⟩

/-! ### Fail-closed semantics of the 1=0 literal -/

/-- Modelled from the spec: SQL evaluates a literal comparison of two
integer constants to a boolean; the compiled fail-closed predicate is the
literal comparing 1 with 0. -/
def sqlConstEqMatches (a b : Int) : Bool := a == b

/-- Modelled from the spec: the rows of a table kept by a WHERE clause that
is a constant predicate. -/
def rowsKeptByConst (rows : List Record) (pred : Bool) : List Record :=
  if pred then rows else []

/-- C2: compiling `whereIn(field, [])`, `whereNotIn(field, [])`, or a
BETWEEN condition whose value list does not have exactly two elements never
raises: the condition compiles to the always-false literal `1=0`, binds zero
parameters, and a WHERE clause consisting of that predicate keeps no rows. -/
theorem empty_in_fail_closed (f : String) (vs : List Value) (hvs : vs.length ≠ 2) :
    QueryBuilder.buildWhereCondition
      { field := f, operator := .inOp, values := some [] } = ("1=0", []) ∧
    QueryBuilder.buildWhereCondition
      { field := f, operator := .notIn, values := some [] } = ("1=0", []) ∧
    QueryBuilder.buildWhereCondition
      { field := f, operator := .between, values := some vs } = ("1=0", []) ∧
    (∀ t, ((QueryBuilder.create t).whereIn f []).build.params = []) ∧
    QueryBuilder.whereClauseStr
      [{ field := f, operator := .inOp, values := some [] }] = " WHERE 1=0" ∧
    ∀ rows, rowsKeptByConst rows (sqlConstEqMatches 1 0) = [] := by
  refine ⟨rfl, rfl, ?_, fun t => rfl, rfl, fun rows => rfl⟩
  simp [QueryBuilder.buildWhereCondition, hvs]

/-- Witness for C2 at a concrete field and an empty BETWEEN value list. -/
theorem empty_in_fail_closed_witness :
    ([] : List Value).length ≠ 2 ∧
    QueryBuilder.buildWhereCondition
      { field := "status", operator := .inOp, values := some [] } = ("1=0", []) ∧
    QueryBuilder.buildWhereCondition
      { field := "status", operator := .between, values := some [] } = ("1=0", []) := by
  refine ⟨by decide, ?_, ?_⟩
  · exact (empty_in_fail_closed "status" [] (by decide)).1
  · exact (empty_in_fail_closed "status" [] (by decide)).2.2.1

/-! ### Schema: field definitions and record validation -/

inductive FieldType where
  | string | number | boolean | date | text | json
deriving DecidableEq

/-- The name of a field type (as it appears in validation messages and the
`fallbackDefaults` lookup). -/
def FieldType.name : FieldType → String
  | .string => "string"
  | .number => "number"
  | .boolean => "boolean"
  | .date => "date"
  | .text => "text"
  | .json => "json"

/-- A declared `default`: a literal value or a producer function.  The
producer receives the current timestamp, mirroring its reads of
`new Date()` with `Date` results already rendered as ISO strings (the
TypeScript converts `Date`-valued defaults with `toISOString`). -/
inductive FieldDefault where
  | val (v : Value)
  | func (f : String → Value)

/-- Outcome of a custom validator: `boolean | string`. -/
inductive VResult where
  | bool (b : Bool)
  | str (s : String)
deriving DecidableEq

/-- The `references` foreign-key declaration (actions omitted: they only
feed DDL generation, which no claim touches). -/
structure Reference where
  table : String
  field : String
deriving DecidableEq

/-- `FieldDefinition` of the Schema module. -/
structure FieldDefinition where
  type : FieldType
  required : Bool := false
  unique : Bool := false
  primaryKey : Bool := false
  autoIncrement : Bool := false
  default : Option FieldDefault := none
  maxLength : Option Nat := none
  minLength : Option Nat := none
  min : Option Int := none
  max : Option Int := none
  enum : Option (List Value) := none
  validate : Option (Value → VResult) := none
  index : Bool := false
  references : Option Reference := none

structure SchemaOptions where
  tableName : Option String := none
  timestamps : Bool := true
  softDeletes : Bool := false
  paranoid : Bool := false

/-- The `Schema` class state: an insertion-ordered field map, the resolved
options, and the table name. -/
structure Schema where
  fields : List (String × FieldDefinition)
  options : SchemaOptions
  tableName : String

/-- Association-list read for non-`Value` payloads (JS `obj[key]`). -/
def getEntry {α : Type} (r : List (String × α)) (k : String) : Option α :=
  (r.find? (fun p => p.1 = k)).map (·.2)

/-- Association-list write for non-`Value` payloads (JS `obj[key] = v`). -/
def setEntry {α : Type} (r : List (String × α)) (k : String) (v : α) :
    List (String × α) :=
  if r.any (fun p => p.1 = k) then
    r.map (fun p => if p.1 = k then (k, v) else p)
  else
    r ++ [(k, v)]

/-- The `Schema` constructor: `timestamps` defaults to true; managed
`created_at` / `updated_at` fields are added when timestamps are enabled and
a nullable `deleted_at` when soft deletes are enabled; the table name falls
back to the empty string. -/
def Schema.make (definition : List (String × FieldDefinition))
    (options : SchemaOptions) : Schema :=
  let fields := definition
  let fields :=
    if options.timestamps then
      setEntry (setEntry fields "created_at"
          { type := .date, required := true,
            default := some (.func (fun now => .str now)) })
        "updated_at"
        { type := .date, required := true,
          default := some (.func (fun now => .str now)) }
    else fields
  let fields :=
    if options.softDeletes then
      setEntry fields "deleted_at"
        { type := .date, required := false, default := some (.val .null) }
    else fields
  { fields, options, tableName := options.tableName.getD "" }

/-- `value === undefined || value === null` on a looked-up record entry. -/
def isNil : Option Value → Bool
  | none => true
  | some .null => true
  | some .undef => true
  | some _ => false

/-- `validateType(value, type)`: `Date` instances are modelled as ISO
strings, so the `date` case accepts strings; an `Int`-modelled number is
never `NaN`. -/
def validateType (value : Value) (type : FieldType) : Bool :=
  match type with
  | .string => match value with | .str _ => true | _ => false
  | .number => match value with | .num _ => true | _ => false
  | .boolean => match value with | .bool _ => true | _ => false
  | .date => match value with | .str _ => true | _ => false
  | .text => match value with | .str _ => true | _ => false
  | .json => true

/-- JS truthiness of an optional numeric bound (`fieldDef.max && ...`
skips the check when the bound is absent or zero). -/
def optNatTruthy : Option Nat → Bool
  | some n => n ≠ 0
  | none => false

def optIntTruthy : Option Int → Bool
  | some n => n ≠ 0
  | none => false

/-- Element rendering of JS `Array.prototype.join` (enum error message). -/
def displayValue : Value → String
  | .str s => s
  | .num n => toString n
  | .bool b => if b then "true" else "false"
  | .null => ""
  | .undef => ""

/-- The length / range / enum / custom-validator checks shared by
`Schema.validate` and `validateUpdateData`, in source order, for a non-nil
value that already passed the type check. -/
def checkConstraints (fieldName : String) (fd : FieldDefinition) (v : Value) :
    List String :=
  (match v with
   | .str s =>
     if fd.type = .string then
       (if optNatTruthy fd.maxLength ∧ s.length > fd.maxLength.getD 0 then
          ["Field \x27" ++ fieldName ++ "\x27 exceeds maximum length of " ++
            toString (fd.maxLength.getD 0)]
        else []) ++
       (if optNatTruthy fd.minLength ∧ s.length < fd.minLength.getD 0 then
          ["Field \x27" ++ fieldName ++ "\x27 is below minimum length of " ++
            toString (fd.minLength.getD 0)]
        else [])
     else []
   | _ => []) ++
  (match v with
   | .num n =>
     if fd.type = .number then
       (if optIntTruthy fd.max ∧ n > fd.max.getD 0 then
          ["Field \x27" ++ fieldName ++ "\x27 exceeds maximum value of " ++
            toString (fd.max.getD 0)]
        else []) ++
       (if optIntTruthy fd.min ∧ n < fd.min.getD 0 then
          ["Field \x27" ++ fieldName ++ "\x27 is below minimum value of " ++
            toString (fd.min.getD 0)]
        else [])
     else []
   | _ => []) ++
  (match fd.enum with
   | some l =>
     if l.length > 0 ∧ ¬ l.contains v then
       ["Field \x27" ++ fieldName ++ "\x27 must be one of: " ++
         arrJoin ", " (l.map displayValue)]
     else []
   | none => []) ++
  (match fd.validate with
   | some f =>
     match f v with
     | .bool true => []
     | .bool false => ["Field \x27" ++ fieldName ++ "\x27 is invalid"]
     | .str s => [s]
   | none => [])

/-- The per-field body of the `Schema.validate` loop: required check (with
the auto-increment exemption), nil skip, type check (`continue` on failure),
then the remaining constraint checks. -/
def validateField (fieldName : String) (fd : FieldDefinition)
    (value : Option Value) : List String :=
  if fd.required ∧ ¬ fd.autoIncrement ∧ isNil value then
    ["Field \x27" ++ fieldName ++ "\x27 is required"]
  else if isNil value then []
  else
    match value with
    | some v =>
      if ¬ validateType v fd.type then
        ["Field \x27" ++ fieldName ++ "\x27 must be of type " ++ fd.type.name]
      else checkConstraints fieldName fd v
    | none => []

structure ValidationResult where
  isValid : Bool
  errors : List String
deriving DecidableEq

/-- `Schema.validate(data)`: walks the fields in declaration order, pushing
every violation onto one accumulator, and never throws. -/
def Schema.validate (s : Schema) (data : Record) : ValidationResult :=
  let errors := s.fields.foldl
    (fun acc p => acc ++ validateField p.1 p.2 (getKey data p.1)) []
  { isValid := errors.isEmpty, errors := errors }

theorem foldl_append_eq_flatMap {α β : Type} (l : List α) (f : α → List β)
    (acc : List β) :
    l.foldl (fun acc x => acc ++ f x) acc = acc ++ l.flatMap f := by
  induction l generalizing acc with
  | nil => simp
  | cons x xs ih => simp [ih]

/-- The violation list is exactly the concatenation, in field-declaration
order, of each field's own violations: validation never short-circuits. -/
theorem validate_errors_flatMap (s : Schema) (data : Record) :
    (s.validate data).errors =
      s.fields.flatMap (fun p => validateField p.1 p.2 (getKey data p.1)) := by
  simpa [Schema.validate] using
    foldl_append_eq_flatMap s.fields (fun p => validateField p.1 p.2 (getKey data p.1)) []

/-! ### Error classification (`BaseModel.parseDbError`) -/

/-- JS `String.prototype.toLowerCase` (ASCII case folding, which covers
everything the classifier compares). -/
def jsToLower (s : String) : String := String.mk (s.data.map Char.toLower)

/-- JS `String.prototype.includes`, on character lists. -/
def containsSubAux (needle : List Char) : List Char → Bool
  | [] => needle.isEmpty
  | c :: cs => needle.isPrefixOf (c :: cs) || containsSubAux needle cs

/-- JS `String.prototype.includes`. -/
def containsSub (needle hay : String) : Bool :=
  containsSubAux needle.data hay.data

theorem containsSubAux_iff (needle hay : List Char) :
    containsSubAux needle hay = true ↔ needle <:+: hay := by
  induction hay with
  | nil =>
    simp [containsSubAux, List.isEmpty_iff]
  | cons c cs ih =>
    simp only [containsSubAux, Bool.or_eq_true, List.isPrefixOf_iff_prefix, ih,
      List.infix_cons_iff]

theorem containsSub_iff (needle hay : String) :
    containsSub needle hay = true ↔ needle.data <:+: hay.data :=
  containsSubAux_iff needle.data hay.data

/-- JS regex `\w`. -/
def isWordChar (c : Char) : Bool := c.isAlphanum || c = '_'

/-- Case-insensitive match of the lowercase literal `pat` at the head of
`s`, returning the remainder on success. -/
def matchLitAt (pat : List Char) (s : List Char) : Option (List Char) :=
  match pat, s with
  | [], rest => some rest
  | _ :: _, [] => none
  | p :: ps, c :: cs => if c.toLower = p then matchLitAt ps cs else none

/-- Parse `\w+\.(\w+)` and return the capture group (the greedy `\w+` run
needs no backtracking because `.` is not a word character). -/
def parseTableDotField (rest : List Char) : Option String :=
  let w1 := rest.takeWhile isWordChar
  if w1.isEmpty then none
  else
    match rest.drop w1.length with
    | '.' :: rest2 =>
      let w2 := rest2.takeWhile isWordChar
      if w2.isEmpty then none else some (String.mk w2)
    | _ => none

/-- Search for the case-insensitive literal `pat` followed by `\w+\.(\w+)`
anywhere in `s`, returning the first capture — the behaviour of the JS
`error.match(/<pat>\w+\.(\w+)/i)` calls of `parseDbError`. -/
def searchPatCapture (pat : List Char) : List Char → Option String
  | [] => none
  | c :: cs =>
    match (matchLitAt pat (c :: cs)).bind parseTableDotField with
    | some f => some f
    | none => searchPatCapture pat cs

/-- `sql.length > 200 ? sql.substring(0, 200) + '...' : sql`. -/
def sqlExcerpt (sql : String) : String :=
  if sql.length > 200 then (sql.take 200) ++ "..." else sql

def insertFailSuggestions : List String :=
  ["Check if all required fields are provided",
   "Verify field types match your schema definition",
   "Ensure no fields exceed maximum length constraints",
   "Check for unique constraint violations",
   "Verify foreign key references exist"]

/-- The schema/database-mismatch diagnosis of the not-null branch. -/
def schemaMismatchMsg (field : String) : String :=
  "Database schema mismatch: Field \x27" ++ field ++
    "\x27 is optional in your ORM schema but required in the database. Consider running migrations or providing a default value."

/-- The plain missing-required-field diagnosis of the not-null branch. -/
def missingFieldMsg (field : String) : String :=
  "Missing required field: " ++ field ++ ". This field cannot be empty."

/-- `BaseModel.parseDbError(error, sql)`: priority-ordered, case-insensitive
substring classification of a raw executor error; total and deterministic. -/
def parseDbError (schema : Schema) (error sql : String) : String :=
  let lowerError := jsToLower error
  let lowerSql := jsToLower sql
  if containsSub "unique constraint" lowerError || containsSub "duplicate" lowerError then
    let field :=
      match searchPatCapture "unique constraint failed: ".data error.data with
      | some f => f
      | none =>
        if containsSub "insert" lowerSql then
          if containsSub "email" lowerSql then "email"
          else if containsSub "username" lowerSql then "username"
          else if containsSub "slug" lowerSql then "slug"
          else if containsSub "sku" lowerSql then "sku"
          else "field"
        else "field"
    "Duplicate entry detected. The " ++ field ++
      " already exists. Please use a different value."
  else if containsSub "foreign key constraint" lowerError then
    "Foreign key constraint violation. The referenced record does not exist or cannot be deleted due to existing relationships."
  else if containsSub "not null constraint" lowerError then
    let field :=
      (searchPatCapture "not null constraint failed: ".data error.data).getD
        "required field"
    match getEntry schema.fields field with
    | some fd =>
      if ¬ fd.required then schemaMismatchMsg field
      else missingFieldMsg field
    | none => missingFieldMsg field
  else if containsSub "check constraint" lowerError then
    "Data validation failed. One or more values do not meet the required constraints."
  else if containsSub "http 400" lowerError then
    if containsSub "insert" lowerSql then
      "Database insert failed. The query was rejected by Cloudflare D1. This usually indicates:\n" ++
        "• Schema mismatch between ORM and database\n" ++
        "• Missing required fields or invalid data types\n" ++
        "• Constraint violations (unique, foreign key, etc.)\n\n" ++
        "SQL: " ++ sqlExcerpt sql ++ "\n\n" ++
        "Debugging suggestions:\n" ++
        arrJoin "\n" (insertFailSuggestions.map (fun s => "• " ++ s))
    else if containsSub "update" lowerSql then
      "Database update failed. Check field constraints and data types.\n" ++
        "SQL: " ++ sqlExcerpt sql
    else if containsSub "select" lowerSql then
      "Database query failed. Check table name and field references.\n" ++
        "SQL: " ++ sqlExcerpt sql
    else
      "Bad Request - The database query was malformed or contains invalid data.\n" ++
        "SQL: " ++ sqlExcerpt sql
  else if containsSub "http 401" lowerError then
    "Unauthorized - Invalid database credentials or access token."
  else if containsSub "http 403" lowerError then
    "Forbidden - Insufficient permissions to perform this operation."
  else if containsSub "http 404" lowerError then
    "Not Found - The specified database or resource does not exist."
  else if containsSub "http 429" lowerError then
    "Rate Limited - Too many requests. Please try again later."
  else if containsSub "http 500" lowerError then
    "Internal Server Error - A server-side error occurred."
  else
    error

/-! ### Remote executor model and the create pipeline -/

/-- One SQL request issued to the remote executor. -/
structure SqlCall where
  sql : String
  params : List Value
deriving DecidableEq

structure ExecMeta where
  changes : Option Nat := none
  last_row_id : Option Int := none
deriving DecidableEq

structure ExecResult where
  results : List Record := []
  success : Bool := true
  error : Option String := none
  meta : ExecMeta := {}
deriving DecidableEq

/-- The RemoteExecutor collaborator of the spec: a function from SQL request
to response. -/
def Executor := SqlCall → ExecResult

/-- `BaseModel.executeQuery`: runs the request and, on failure, raises the
classified message (the inner `throw` re-enters the surrounding `catch`, so
`parseDbError` is applied to its own output before the `Database error:`
prefix).  Returns the outcome and the list of requests issued. -/
def executeQuery (schema : Schema) (db : Executor) (sql : String)
    (params : List Value) : Except String ExecResult × List SqlCall :=
  let call : SqlCall := { sql, params }
  let result := db call
  if ¬ result.success then
    let inner := parseDbError schema (result.error.getD "Query execution failed") sql
    (.error ("Database error: " ++ parseDbError schema inner sql), [call])
  else (.ok result, [call])

/-- `evalDefault`: a literal default is used as-is; a producer is invoked
(with `Date` results already rendered as ISO strings). -/
def evalDefault (d : FieldDefault) (now : String) : Value :=
  match d with
  | .val v => v
  | .func f => f now

/-- The `fallbackDefaults` table of `prepareDataForInsert`. -/
def fallbackDefault (t : FieldType) (now : String) : Value :=
  match t with
  | .string => .str ""
  | .number => .num 0
  | .boolean => .bool false
  | .date => .str now
  | .text => .str ""
  | .json => .null

/-- JS truthiness of a looked-up record entry. -/
def truthyOpt : Option Value → Bool
  | some v => v.truthy
  | none => false

/-- `CrudOperations.prepareDataForInsert`: copy the caller's entries (an
auto-increment field is excluded only when its value is `undefined`, and a
`Record` entry is always defined, so every entry is copied), inject declared
defaults for unset non-auto-increment fields, inject type-appropriate
fallbacks for unset optional fields without a declared default, then stamp
`created_at`/`updated_at` when timestamps are enabled and the entry is
falsy.  The final `Date`-to-ISO sweep is the identity here because dates are
modelled as ISO strings throughout. -/
def prepareDataForInsert (schema : Schema) (now : String) (data : Record) :
    Record :=
  let prepared : Record := data
  let prepared := schema.fields.foldl
    (fun prep p =>
      if ¬ p.2.autoIncrement ∧ (getKey prep p.1).isNone ∧ p.2.default.isSome then
        setKey prep p.1 (evalDefault (p.2.default.getD (.val .undef)) now)
      else prep)
    prepared
  let prepared := schema.fields.foldl
    (fun prep p =>
      if ¬ p.2.autoIncrement ∧ ¬ p.2.required ∧ (getKey prep p.1).isNone ∧
          p.2.default.isNone then
        setKey prep p.1 (fallbackDefault p.2.type now)
      else prep)
    prepared
  if schema.options.timestamps then
    let prepared :=
      if ¬ truthyOpt (getKey prepared "created_at") then
        setKey prepared "created_at" (.str now)
      else prepared
    if ¬ truthyOpt (getKey prepared "updated_at") then
      setKey prepared "updated_at" (.str now)
    else prepared
  else prepared

/-- `CrudOperations.findById` with no hooks registered: compile
`SELECT * ... WHERE id = ?`, run it, and return `records[0] || null`
(a row object is always truthy).  Also returns the issued requests. -/
def findByIdCalls (schema : Schema) (tableName : String) (db : Executor)
    (id : Value) : Except String (Option Record) × List SqlCall :=
  let qb := (QueryBuilder.create tableName).whereC "id" .eq (some id)
  let br := qb.build
  match executeQuery schema db br.sql br.params with
  | (.error e, calls) => (.error e, calls)
  | (.ok result, calls) => (.ok result.results.head?, calls)

/-- `CrudOperations.create` with no hooks registered: prepare the record,
validate it (aborting with the full violation list before any SQL when
invalid), compile and run the INSERT, then re-fetch the row through
`meta.last_row_id` (a missing or zero id is the hard `Failed to create
record` error; a missing re-fetched row is `Failed to retrieve created
record`).  Returns the outcome together with every SQL request issued. -/
def create (schema : Schema) (tableName now : String) (db : Executor)
    (data : Record) : Except String Record × List SqlCall :=
  let preparedData := prepareDataForInsert schema now data
  let validation := schema.validate preparedData
  if ¬ validation.isValid then
    (.error ("Validation failed: " ++ arrJoin ", " validation.errors), [])
  else
    let fields := preparedData.map Prod.fst
    let values := preparedData.map Prod.snd
    let sql := "INSERT INTO " ++ tableName ++ " (" ++ arrJoin ", " fields ++
      ") VALUES (" ++ arrJoin ", " (fields.map (fun _ => "?")) ++ ")"
    match executeQuery schema db sql values with
    | (.error e, calls) => (.error e, calls)
    | (.ok result, calls) =>
      match result.meta.last_row_id with
      | some id =>
        if id ≠ 0 then
          match findByIdCalls schema tableName db (.num id) with
          | (.error e, fcalls) => (.error e, calls ++ fcalls)
          | (.ok (some record), fcalls) => (.ok record, calls ++ fcalls)
          | (.ok none, fcalls) =>
            (.error "Failed to retrieve created record", calls ++ fcalls)
        else (.error "Failed to create record", calls)
      | none => (.error "Failed to create record", calls)

/-- C3: when the prepared record (after default injection and timestamp
stamping) fails `Schema.validate`, `create` raises an error carrying the
complete violation list — collected per field in declaration order with no
short-circuit — and issues no SQL request, so the table is unchanged. -/
theorem create_validation_aborts (schema : Schema) (tableName now : String)
    (db : Executor) (data : Record)
    (hinvalid : (schema.validate (prepareDataForInsert schema now data)).isValid = false) :
    create schema tableName now db data =
      (.error ("Validation failed: " ++ arrJoin ", "
        (schema.validate (prepareDataForInsert schema now data)).errors), []) ∧
    (schema.validate (prepareDataForInsert schema now data)).errors =
      schema.fields.flatMap (fun p =>
        validateField p.1 p.2 (getKey (prepareDataForInsert schema now data) p.1)) := by
  refine ⟨?_, validate_errors_flatMap _ _⟩
  unfold create
  simp only []
  rw [if_pos (by rw [hinvalid]; simp)]

/-- A small user schema used by concrete witnesses. -/
def c3Schema : Schema :=
  Schema.make
    [("email", { type := .string, required := true }),
     ("age", { type := .number, required := true, min := some 13 })]
    { timestamps := false }

/-- An executor whose responses are never reached on the validation-failure
path. -/
def c3Db : Executor := fun _ => {}

/-- Witness for C3: a record missing `email` and carrying an under-range
`age` aborts `create` with both violations listed and zero SQL calls. -/
theorem create_validation_aborts_witness :
    ((c3Schema.validate (prepareDataForInsert c3Schema "2024-01-01T00:00:00.000Z"
        [("age", .num 10)])).isValid = false) ∧
    create c3Schema "users" "2024-01-01T00:00:00.000Z" c3Db [("age", .num 10)] =
      (.error ("Validation failed: Field \x27email\x27 is required, Field \x27age\x27 is below minimum value of 13"),
        []) := by
  have h := create_validation_aborts c3Schema "users" "2024-01-01T00:00:00.000Z"
    c3Db [("age", .num 10)] (by decide)
  refine ⟨by decide, ?_⟩
  rw [h.1]
  rfl

/-! ### Upsert race recovery (`UpsertOperations.upsert`) -/

/-- `error.message.toLowerCase().includes('duplicate')`: the duplicate-entry
classification used by the upsert catch blocks. -/
def isDuplicateMsg (msg : String) : Bool := containsSub "duplicate" (jsToLower msg)

structure UpsertResult where
  record : Record
  created : Bool
  updated : Bool
deriving DecidableEq

/-- The sub-operations one `upsert` call sequences, as an oracle
environment: `findOne n` is the result of the n-th `findOne` this call
issues against its where-specification (the two calls may disagree because
a concurrent writer can insert between them — the lost race); `createRes`
is the outcome of the single `create` attempt on the call's create payload;
`updateById id` is the outcome of `updateById(id, payload)` on the call's
update payload, `ok none` when no row was updated (the source then falls
back to the found record via `updatedRecord || existingRecord`). -/
structure UpsertEnv where
  findOne : Nat → Option Record
  createRes : Except String Record
  updateById : Option Value → Except String (Option Record)

/-- `UpsertOperations.upsert({where, create, update})` (Prisma-style
variant): find, and update when found; otherwise create, recovering from a
duplicate-classified failure by a second find followed by the update path;
any other error, or a still-missing record, propagates the create error. -/
def upsertWhere (env : UpsertEnv) : Except String UpsertResult :=
  match env.findOne 0 with
  | some existingRecord =>
    match env.updateById (getKey existingRecord "id") with
    | .error e => .error e
    | .ok updatedRecord =>
      .ok { record := updatedRecord.getD existingRecord, created := false,
            updated := true }
  | none =>
    match env.createRes with
    | .ok newRecord =>
      .ok { record := newRecord, created := true, updated := false }
    | .error e =>
      if isDuplicateMsg e then
        match env.findOne 1 with
        | some existingRecord =>
          match env.updateById (getKey existingRecord "id") with
          | .error e2 => .error e2
          | .ok updatedRecord =>
            .ok { record := updatedRecord.getD existingRecord, created := false,
                  updated := true }
        | none => .error e
      else .error e

/-- The where-conditions the data/uniqueFields variant derives from the
payload: one equality per unique field whose value is defined. -/
def buildWhereFromUnique (data : Record) (uniqueFields : List String) : Record :=
  uniqueFields.foldl
    (fun acc f =>
      match getKey data f with
      | some v => acc ++ [(f, v)]
      | none => acc)
    []

/-- `UpsertOperations.upsert(data, uniqueFields)` (original variant): the
same control flow duplicated in the source, with the where-specification
derived by `buildWhereFromUnique` and `data` serving as both create and
update payload. -/
def upsertData (env : UpsertEnv) : Except String UpsertResult :=
  match env.findOne 0 with
  | some existingRecord =>
    match env.updateById (getKey existingRecord "id") with
    | .error e => .error e
    | .ok updatedRecord =>
      .ok { record := updatedRecord.getD existingRecord, created := false,
            updated := true }
  | none =>
    match env.createRes with
    | .ok newRecord =>
      .ok { record := newRecord, created := true, updated := false }
    | .error e =>
      if isDuplicateMsg e then
        match env.findOne 1 with
        | some existingRecord =>
          match env.updateById (getKey existingRecord "id") with
          | .error e2 => .error e2
          | .ok updatedRecord =>
            .ok { record := updatedRecord.getD existingRecord, created := false,
                  updated := true }
        | none => .error e
      else .error e

/-- C4: in either calling convention, when the initial `findOne` misses and
`create` fails with a duplicate-entry-classified error, the upsert re-runs
`findOne`; when a record is then found, the update payload is applied
through `updateById` and the call reports `created:false, updated:true`;
when the record is still missing, the original create error propagates
unchanged. -/
theorem upsert_race_recovery (env : UpsertEnv) (e : String)
    (h0 : env.findOne 0 = none)
    (hc : env.createRes = .error e)
    (hdup : isDuplicateMsg e = true) :
    (∀ r u, env.findOne 1 = some r →
      env.updateById (getKey r "id") = .ok u →
      upsertWhere env =
        .ok { record := u.getD r, created := false, updated := true } ∧
      upsertData env =
        .ok { record := u.getD r, created := false, updated := true }) ∧
    (env.findOne 1 = none →
      upsertWhere env = .error e ∧ upsertData env = .error e) := by
  constructor
  · intro r u h1 hu
    constructor <;> simp [upsertWhere, upsertData, h0, hc, hdup, h1, hu]
  · intro h1
    constructor <;> simp [upsertWhere, upsertData, h0, hc, hdup, h1]

/-- A concrete duplicate-entry message (as produced by `parseDbError`). -/
def c4Msg : String :=
  "Duplicate entry detected. The email already exists. Please use a different value."

/-- A concrete lost-race environment: the first find misses, the create hits
the duplicate, the second find sees the concurrently inserted row, and the
update rewrites it. -/
def c4Env : UpsertEnv where
  findOne n := if n = 0 then none else some [("id", .num 7), ("name", .str "old")]
  createRes := .error c4Msg
  updateById _ := .ok (some [("id", .num 7), ("name", .str "new")])

/-- Witness for C4 on the concrete lost-race environment. -/
theorem upsert_race_recovery_witness :
    c4Env.findOne 0 = none ∧ c4Env.createRes = .error c4Msg ∧
    isDuplicateMsg c4Msg = true ∧
    upsertWhere c4Env =
      .ok { record := [("id", .num 7), ("name", .str "new")], created := false,
            updated := true } ∧
    upsertData c4Env =
      .ok { record := [("id", .num 7), ("name", .str "new")], created := false,
            updated := true } := by
  have h := upsert_race_recovery c4Env c4Msg rfl rfl (by decide)
  have h2 := h.1 [("id", .num 7), ("name", .str "old")]
    (some [("id", .num 7), ("name", .str "new")]) rfl rfl
  exact ⟨rfl, rfl, by decide, h2.1, h2.2⟩

/-! ### Find options and the soft-delete filter -/

/-- The shapes a value can take in a `where` mapping, dispatched by
`BaseModel.addWhereConditions`: `null` becomes IS NULL, `undefined` is
skipped, an array becomes IN, an `{operator, value}` object uses its
operator, and any other value becomes an equality. -/
inductive WhereArg where
  | nullArg
  | undefArg
  | arr (vs : List Value)
  | opv (op : WhereOperator) (v : Value)
  | plain (v : Value)
deriving DecidableEq

/-- `BaseModel.addWhereConditions(query, conditions)`. -/
def addWhereConditions (qb : QueryBuilder)
    (conditions : List (String × WhereArg)) : QueryBuilder :=
  conditions.foldl
    (fun q p =>
      match p.2 with
      | .nullArg => q.whereNull p.1
      | .undefArg => q
      | .arr vs => q.whereIn p.1 vs
      | .opv op v => q.whereC p.1 op (some v)
      | .plain v => q.whereC p.1 .eq (some v))
    qb

/-- `select` option: array form or object form. -/
inductive SelectSpec where
  | arr (fields : List String)
  | obj (fields : List (String × Bool))
deriving DecidableEq

/-- `orderBy` option: string, array, or mapping form. -/
inductive OrderBySpec where
  | strSpec (s : String)
  | arrSpec (l : List OrderByCondition)
  | objSpec (l : List (String × OrderDirection))
deriving DecidableEq

/-- `FindOptions` of `advanced/CrudOperations.ts` (`take`/`skip` are the
Prisma-style aliases of `limit`/`offset`). -/
structure FindOptions where
  select : Option SelectSpec := none
  whereConds : Option (List (String × WhereArg)) := none
  orderBy : Option OrderBySpec := none
  limit : Option Int := none
  take : Option Int := none
  offset : Option Int := none
  skip : Option Int := none

/-- `a || b` on optional numbers with JS truthiness (zero is falsy). -/
def jsOrOptInt (a b : Option Int) : Option Int :=
  if optIntTruthy a then a else b

/-- `CrudOperations.buildQueryFromOptions`: select (array or object form),
where conditions, orderBy in its three forms (a string orderBy is subject to
JS truthiness, so the empty string is skipped), `limit || take` and
`offset || skip`, and finally the `deleted_at IS NULL` filter appended for a
soft-delete-enabled, non-paranoid schema. -/
def buildQueryFromOptions (schema : Schema) (tableName : String)
    (options : FindOptions) : QueryBuilder :=
  let query := QueryBuilder.create tableName
  let query :=
    match options.select with
    | some (.arr fields) => query.select fields
    | some (.obj fields) =>
      let selectedFields := (fields.filter (fun p => p.2 = true)).map Prod.fst
      if selectedFields.length > 0 then query.select selectedFields else query
    | none => query
  let query :=
    match options.whereConds with
    | some conds => addWhereConditions query conds
    | none => query
  let query :=
    match options.orderBy with
    | some (.strSpec s) => if s ≠ "" then query.orderBy s else query
    | some (.arrSpec l) => l.foldl (fun q o => q.orderBy o.field o.direction) query
    | some (.objSpec l) => l.foldl (fun q p => q.orderBy p.1 p.2) query
    | none => query
  let limitValue := jsOrOptInt options.limit options.take
  let query :=
    if optIntTruthy limitValue then query.limit (limitValue.getD 0) else query
  let offsetValue := jsOrOptInt options.offset options.skip
  let query :=
    if optIntTruthy offsetValue then query.offset (offsetValue.getD 0) else query
  if schema.options.softDeletes ∧ ¬ schema.options.paranoid then
    query.whereNull "deleted_at"
  else query

/-- The query compiled by `findOne(options)`: `buildQueryFromOptions` on
`{ ...options, limit: 1 }`. -/
def findOneQuery (schema : Schema) (tableName : String)
    (options : FindOptions) : QueryBuilder :=
  buildQueryFromOptions schema tableName { options with limit := some 1 }

/-- The query compiled by `findAll(options)`. -/
def findAllQuery (schema : Schema) (tableName : String)
    (options : FindOptions) : QueryBuilder :=
  buildQueryFromOptions schema tableName options

/-- The query compiled by `findById(id)`: a bare `WHERE id = ?`, built
without `buildQueryFromOptions`. -/
def findByIdQuery (tableName : String) (id : Value) : QueryBuilder :=
  (QueryBuilder.create tableName).whereC "id" .eq (some id)

/-- The managed soft-delete condition. -/
def deletedAtCond : WhereCondition :=
  { field := "deleted_at", operator := .isNull }

theorem infix_append_left {α : Type} {l m : List α} (x : List α)
    (h : l <:+: m) : l <:+: x ++ m := by
  obtain ⟨s, t, rfl⟩ := h
  exact ⟨x ++ s, t, by simp⟩

theorem infix_append_right {α : Type} {l m : List α} (y : List α)
    (h : l <:+: m) : l <:+: m ++ y := by
  obtain ⟨s, t, rfl⟩ := h
  exact ⟨s, t ++ y, by simp⟩

theorem mem_infix_arrJoin (sep : String) (l : List String) (s : String)
    (hs : s ∈ l) : s.data <:+: (arrJoin sep l).data := by
  induction l with
  | nil => cases hs
  | cons x xs ih =>
    cases xs with
    | nil =>
      rcases List.mem_singleton.mp hs with rfl
      exact List.infix_rfl
    | cons y ys =>
      rcases List.mem_cons.mp hs with rfl | hmem
      · show s.data <:+: (s ++ sep ++ arrJoin sep (y :: ys)).data
        rw [String.data_append, String.data_append]
        exact infix_append_right _ (infix_append_right _ List.infix_rfl)
      · have hrec := ih hmem
        show s.data <:+: (x ++ sep ++ arrJoin sep (y :: ys)).data
        rw [String.data_append, String.data_append]
        exact infix_append_left _ hrec

theorem whereClauseStr_contains (cs : List WhereCondition) (c : WhereCondition)
    (hc : c ∈ cs) :
    ((QueryBuilder.buildWhereCondition c).1).data <:+:
      (QueryBuilder.whereClauseStr cs).data := by
  rw [QueryBuilder.whereClauseStr,
    if_neg (by simp [List.isEmpty_iff]; exact List.ne_nil_of_mem hc)]
  rw [String.data_append]
  exact infix_append_left _
    (mem_infix_arrJoin _ _ _ (List.mem_map_of_mem _ hc))

/-- Any condition in the builder's WHERE list contributes its compiled
fragment as an infix of the compiled SQL text. -/
theorem build_sql_contains_where_frag (qb : QueryBuilder) (c : WhereCondition)
    (hc : c ∈ qb._where) :
    ((QueryBuilder.buildWhereCondition c).1).data <:+: (qb.build).sql.data := by
  have hW := whereClauseStr_contains qb._where c hc
  simp only [QueryBuilder.build, String.data_append]
  exact infix_append_right _ (infix_append_right _ (infix_append_right _
    (infix_append_right _ (infix_append_right _ (infix_append_left _ hW)))))

theorem buildQueryFromOptions_soft_delete (schema : Schema) (t : String)
    (options : FindOptions)
    (hsd : schema.options.softDeletes = true)
    (hp : schema.options.paranoid = false) :
    deletedAtCond ∈ (buildQueryFromOptions schema t options)._where ∧
    "deleted_at IS NULL".data <:+:
      ((buildQueryFromOptions schema t options).build).sql.data := by
  have hmem : deletedAtCond ∈ (buildQueryFromOptions schema t options)._where := by
    unfold buildQueryFromOptions
    rw [if_pos (by simp [hsd, hp])]
    simp [QueryBuilder.whereNull, deletedAtCond]
  refine ⟨hmem, ?_⟩
  have := build_sql_contains_where_frag _ _ hmem
  simpa [QueryBuilder.buildWhereCondition, deletedAtCond] using this

/-- C5 (amended): for every soft-delete-enabled, non-paranoid schema,
`findOne` and `findAll` — which compile through `buildQueryFromOptions` —
produce a SELECT whose WHERE clause includes `deleted_at IS NULL`; `findById`
does not go through that path and compiles a bare `WHERE id = ?` with no
soft-delete filter. -/
theorem find_soft_delete_filter (schema : Schema) (t : String)
    (options : FindOptions)
    (hsd : schema.options.softDeletes = true)
    (hp : schema.options.paranoid = false) :
    (deletedAtCond ∈ (findOneQuery schema t options)._where ∧
      "deleted_at IS NULL".data <:+:
        ((findOneQuery schema t options).build).sql.data) ∧
    (deletedAtCond ∈ (findAllQuery schema t options)._where ∧
      "deleted_at IS NULL".data <:+:
        ((findAllQuery schema t options).build).sql.data) ∧
    (∀ id, (findByIdQuery t id)._where =
      [{ field := "id", operator := .eq, value := some id }]) :=
  ⟨buildQueryFromOptions_soft_delete schema t _ hsd hp,
   buildQueryFromOptions_soft_delete schema t _ hsd hp,
   fun _ => rfl⟩

/-- A soft-delete-enabled, non-paranoid schema for the concrete C5 inputs. -/
def c5Schema : Schema :=
  Schema.make [("id", { type := .number, primaryKey := true })]
    { timestamps := false, softDeletes := true }

/-- Counterexample to C5 as stated: on a soft-delete-enabled, non-paranoid
schema, `findById` compiles a SELECT whose WHERE clause does not contain
`deleted_at IS NULL`. -/
theorem findById_no_soft_delete_filter :
    c5Schema.options.softDeletes = true ∧
    c5Schema.options.paranoid = false ∧
    (findByIdQuery "posts" (.num 1)).build =
      { sql := "SELECT * FROM posts WHERE id = ?", params := [.num 1] } ∧
    containsSub "deleted_at IS NULL"
      ((findByIdQuery "posts" (.num 1)).build).sql = false := by
  refine ⟨rfl, rfl, by decide, by decide⟩

/-- Witness for the amended C5 on the concrete schema and empty options. -/
theorem find_soft_delete_filter_witness :
    c5Schema.options.softDeletes = true ∧
    c5Schema.options.paranoid = false ∧
    deletedAtCond ∈ (findOneQuery c5Schema "posts" {})._where ∧
    deletedAtCond ∈ (findAllQuery c5Schema "posts" {})._where := by
  have h := find_soft_delete_filter c5Schema "posts" {} rfl rfl
  exact ⟨rfl, rfl, h.1.1, h.2.1.1⟩

/-! ### Aggregates: min/max/percentile and the falsy coercion -/

/-- Modelled from the spec: the remote engine's row set for
`SELECT <field> FROM t ORDER BY <field> ASC LIMIT <lim> OFFSET <off>` over
the multiset of matching field values; SQLite treats a negative OFFSET as
zero (`Int.toNat` sends negatives to zero). -/
def engineSortedSelect (vals : List Int) (lim : Nat) (off : Int) : List Int :=
  (((List.insertionSort (· ≤ ·) vals).drop off.toNat).take lim)

/-- Modelled from the spec: SQL `MIN(field)` over the matching values —
NULL (none) on an empty set. -/
def sqlMin (vals : List Int) : Option Int := vals.min?

/-- Modelled from the spec: SQL `MAX(field)` over the matching values. -/
def sqlMax (vals : List Int) : Option Int := vals.max?

/-- `result.results[0]?.<alias> || null`: the JS falsy coercion the
aggregate methods apply to a fetched numeric value — zero becomes null. -/
def jsNumOrNull : Option Int → Option Int
  | some v => if v = 0 then none else some v
  | none => none

/-- `AggregateOperations.min(field)` against the engine model: fetch
`MIN(field)` and apply `|| null`. -/
def minAgg (vals : List Int) : Option Int := jsNumOrNull (sqlMin vals)

/-- `AggregateOperations.max(field)` against the engine model. -/
def maxAgg (vals : List Int) : Option Int := jsNumOrNull (sqlMax vals)

/-- `Math.ceil((percentile / 100) * count)` for natural `percentile` and
`count` (exact in JS doubles at these magnitudes). -/
def percentilePosition (p count : Nat) : Nat := (p * count + 99) / 100

/-- The value query `percentile` issues (without `where` options): select
the field, ascending order, `LIMIT 1 OFFSET position - 1`. -/
def percentileValueQuery (t f : String) (position : Nat) : QueryBuilder :=
  ((((QueryBuilder.create t).select [f]).orderBy f .asc).limit 1).offset
    ((position : Int) - 1)

/-- `AggregateOperations.percentile(field, p)` against the engine model:
reject out-of-range p, count the matching rows, return null when none
match, else fetch `ORDER BY field ASC LIMIT 1 OFFSET position-1` and apply
the `|| null` coercion to the fetched value. -/
def percentileAgg (vals : List Int) (p : Nat) : Except String (Option Int) :=
  if p > 100 then .error "Percentile must be between 0 and 100"
  else
    let countResult := vals.length
    if countResult = 0 then .ok none
    else
      let position := percentilePosition p countResult
      let fetched := (engineSortedSelect vals 1 ((position : Int) - 1)).head?
      .ok (jsNumOrNull fetched)

theorem head?_take_one {α : Type} (l : List α) : (l.take 1).head? = l.head? := by
  cases l <;> rfl

instance : Std.Antisymm (fun (a b : Int) => a ≤ b) :=
  ⟨fun h h' => le_antisymm h h'⟩

theorem insertionSort_head?_min (vals : List Int) (m : Int)
    (h : vals.min? = some m) :
    (List.insertionSort (· ≤ ·) vals).head? = some m := by
  have hperm := List.perm_insertionSort (· ≤ ·) vals
  have hsorted := List.sorted_insertionSort (· ≤ ·) vals
  obtain ⟨hmem, hle⟩ := (List.min?_eq_some_iff (fun a => le_refl a)
    (fun a b => min_choice a b) (fun a b c => le_min_iff)).mp h
  have hmemS : m ∈ List.insertionSort (· ≤ ·) vals := hperm.mem_iff.mpr hmem
  cases hs : List.insertionSort (· ≤ ·) vals with
  | nil => rw [hs] at hmemS; cases hmemS
  | cons c rest =>
    rw [hs] at hmemS hsorted hperm
    have hcrest := (List.sorted_cons.mp hsorted).1
    have hcm : c ≤ m := by
      rcases List.mem_cons.mp hmemS with rfl | hmr
      · exact le_refl _
      · exact hcrest m hmr
    have hmc : m ≤ c := hle c (hperm.mem_iff.mp (List.mem_cons_self c rest))
    rw [le_antisymm hcm hmc]
    rfl

theorem insertionSort_last_max (vals : List Int) (M : Int)
    (h : vals.max? = some M) :
    (List.insertionSort (· ≤ ·) vals)[vals.length - 1]? = some M := by
  have hperm := List.perm_insertionSort (· ≤ ·) vals
  have hsorted := List.sorted_insertionSort (· ≤ ·) vals
  obtain ⟨hmem, hle⟩ := (List.max?_eq_some_iff (fun a => le_refl a)
    (fun a b => max_choice a b) (fun a b c => max_le_iff)).mp h
  have hlen : (List.insertionSort (· ≤ ·) vals).length = vals.length :=
    hperm.length_eq
  have hmemS : M ∈ List.insertionSort (· ≤ ·) vals := hperm.mem_iff.mpr hmem
  have hpos : 0 < vals.length := List.length_pos_of_mem hmem
  have hidx : vals.length - 1 < (List.insertionSort (· ≤ ·) vals).length := by
    omega
  obtain ⟨i, hi⟩ := List.mem_iff_get.mp hmemS
  have hget : (List.insertionSort (· ≤ ·) vals)[vals.length - 1]? =
      some ((List.insertionSort (· ≤ ·) vals).get ⟨vals.length - 1, hidx⟩) := by
    rw [List.getElem?_eq_getElem hidx]
    rfl
  have hMc : M ≤ (List.insertionSort (· ≤ ·) vals).get ⟨vals.length - 1, hidx⟩ := by
    by_cases hieq : i.val = vals.length - 1
    · rw [← hi]
      exact le_of_eq (congrArg _ (Fin.ext hieq))
    · have hlt : i < (⟨vals.length - 1, hidx⟩ : Fin _) := by
        rw [Fin.lt_def]
        show i.val < vals.length - 1
        have hi2 := i.isLt
        omega
      exact hi ▸ hsorted.rel_get_of_lt hlt
  have hcM : (List.insertionSort (· ≤ ·) vals).get ⟨vals.length - 1, hidx⟩ ≤ M :=
    hle _ (hperm.mem_iff.mp (List.get_mem _ _ hidx))
  rw [hget, le_antisymm hcM hMc]

theorem percentile_zero_min (vals : List Int) (m : Int)
    (hmin : sqlMin vals = some m) (hm : m ≠ 0) :
    percentileAgg vals 0 = .ok (some m) := by
  have hn : vals.length ≠ 0 := by
    intro h
    rw [List.length_eq_zero.mp h] at hmin
    simp [sqlMin] at hmin
  have hpos : percentilePosition 0 vals.length = 0 := by
    unfold percentilePosition; omega
  simp only [percentileAgg, hpos, engineSortedSelect]
  rw [if_neg (by omega), if_neg hn]
  have hoff : (((0 : Nat) : Int) - 1).toNat = 0 := by decide
  rw [hoff, List.drop_zero, head?_take_one, insertionSort_head?_min vals m hmin]
  simp [jsNumOrNull, hm]

theorem percentile_hundred_max (vals : List Int) (M : Int)
    (hmax : sqlMax vals = some M) (hM : M ≠ 0) :
    percentileAgg vals 100 = .ok (some M) := by
  have hn : vals.length ≠ 0 := by
    intro h
    rw [List.length_eq_zero.mp h] at hmax
    simp [sqlMax] at hmax
  have hpos : percentilePosition 100 vals.length = vals.length := by
    unfold percentilePosition; omega
  simp only [percentileAgg, hpos, engineSortedSelect]
  rw [if_neg (by omega), if_neg hn]
  have hoff : ((vals.length : Int) - 1).toNat = vals.length - 1 := by omega
  rw [hoff, head?_take_one, List.head?_drop, insertionSort_last_max vals M hmax]
  simp [jsNumOrNull, hM]

/-- C6 (amended): percentile follows the stated algorithm — rank
ceil(p/100·count), then a value query ordered ascending with
`LIMIT 1 OFFSET rank-1` — never raises for p ≤ 100 and returns null on an
empty match set; percentile(field, 0) returns the minimum and
percentile(field, 100) the maximum of the stored values whenever that
boundary value is nonzero (a fetched zero is coerced to null by the same
`|| null` described by C10). -/
theorem percentile_boundary (vals : List Int) (p : Nat) (hp : p ≤ 100)
    (m M : Int) (hmin : sqlMin vals = some m) (hmax : sqlMax vals = some M) :
    (m ≠ 0 → percentileAgg vals 0 = .ok (some m)) ∧
    (M ≠ 0 → percentileAgg vals 100 = .ok (some M)) ∧
    percentileAgg [] p = .ok none ∧
    (∀ t f pos,
      (percentileValueQuery t f pos)._select = [f] ∧
      (percentileValueQuery t f pos)._orderBy =
        [{ field := f, direction := .asc }] ∧
      (percentileValueQuery t f pos)._limit = some 1 ∧
      (percentileValueQuery t f pos)._offset = some ((pos : Int) - 1)) := by
  refine ⟨fun hm => percentile_zero_min vals m hmin hm,
    fun hM => percentile_hundred_max vals M hmax hM, ?_, ?_⟩
  · unfold percentileAgg
    rw [if_neg (by omega)]
    rfl
  · intro t f pos
    exact ⟨rfl, rfl, rfl, rfl⟩

/-- Counterexample to C6 as stated: on the single-row table holding the
value 0, the minimum is 0 yet percentile(field, 0) returns null — the
fetched boundary value is erased by the `|| null` coercion. -/
theorem percentile_zero_counterexample :
    sqlMin [0] = some 0 ∧ percentileAgg [0] 0 = .ok none := by
  exact ⟨by decide, rfl⟩

/-- Witness for the amended C6 on a concrete three-row table. -/
theorem percentile_boundary_witness :
    (5 : Nat) ≤ 100 ∧ sqlMin [3, 1, 2] = some 1 ∧ sqlMax [3, 1, 2] = some 3 ∧
    percentileAgg [3, 1, 2] 0 = .ok (some 1) ∧
    percentileAgg [3, 1, 2] 100 = .ok (some 3) ∧
    percentileAgg [] 5 = .ok none := by
  have h := percentile_boundary [3, 1, 2] 5 (by decide) 1 3 (by decide) (by decide)
  exact ⟨by decide, by decide, by decide, h.1 (by decide), h.2.1 (by decide),
    h.2.2.1⟩

/-- C10: min, max, and percentile return null not only when no row matches
but whenever the value fetched from the executor is falsy: a zero minimum
(maximum, percentile-selected value) is coerced to null by `|| null`, so at
the public interface it is indistinguishable from an empty match set. -/
theorem aggregate_zero_null (vals : List Int) (p : Nat) (hp : p ≤ 100) :
    (∀ fetched : Option Int, fetched = some 0 → jsNumOrNull fetched = none) ∧
    (sqlMin vals = some 0 → minAgg vals = none ∧ minAgg [] = none) ∧
    (sqlMax vals = some 0 → maxAgg vals = none ∧ maxAgg [] = none) ∧
    (vals.length ≠ 0 →
      (engineSortedSelect vals 1
        ((percentilePosition p vals.length : Int) - 1)).head? = some 0 →
      percentileAgg vals p = .ok none ∧ percentileAgg [] p = .ok none) := by
  refine ⟨?_, ?_, ?_, ?_⟩
  · rintro fetched rfl; rfl
  · intro h
    exact ⟨by simp [minAgg, h, jsNumOrNull], rfl⟩
  · intro h
    exact ⟨by simp [maxAgg, h, jsNumOrNull], rfl⟩
  · intro hn hf
    constructor
    · simp only [percentileAgg]
      rw [if_neg (by omega), if_neg hn, hf]
      rfl
    · unfold percentileAgg
      rw [if_neg (by omega)]
      rfl

/-- Witness for C10 on the single-row table holding the value 0. -/
theorem aggregate_zero_null_witness :
    (0 : Nat) ≤ 100 ∧ sqlMin [0] = some 0 ∧ sqlMax [0] = some 0 ∧
    minAgg [0] = none ∧ minAgg [] = none ∧ maxAgg [0] = none ∧
    percentileAgg [0] 0 = .ok none := by
  have h := aggregate_zero_null [0] 0 (by decide)
  exact ⟨by decide, by decide, by decide, (h.2.1 (by decide)).1,
    (h.2.1 (by decide)).2, (h.2.2.1 (by decide)).1,
    (h.2.2.2 (by decide) (by decide)).1⟩

/-! ### Update compilation -/

/-- `CrudOperations.prepareDataForUpdate`: spread the payload, stamp
`updated_at` when timestamps are enabled (the `Date`-to-ISO sweep is the
identity because dates are modelled as ISO strings), then strip `id` and
`created_at`. -/
def prepareDataForUpdate (schema : Schema) (now : String) (data : Record) :
    Record :=
  let prepared := data
  let prepared :=
    if schema.options.timestamps then setKey prepared "updated_at" (.str now)
    else prepared
  eraseKey (eraseKey prepared "id") "created_at"

/-- `CrudOperations.validateUpdateData`: validate only the payload's own
fields — fields absent from the schema are skipped, and a type failure
skips the remaining checks for that field. -/
def validateUpdateData (schema : Schema) (data : Record) : ValidationResult :=
  let errors := data.foldl
    (fun acc p =>
      match getEntry schema.fields p.1 with
      | none => acc
      | some fd =>
        if ¬ validateType p.2 fd.type then
          acc ++ ["Field \x27" ++ p.1 ++ "\x27 must be of type " ++ fd.type.name]
        else acc ++ checkConstraints p.1 fd p.2)
    []
  { isValid := errors.isEmpty, errors := errors }

/-- The compile stage of `CrudOperations.update(data, where)` with no hooks
registered: prepare the payload, validate the fields present in it, then
compile `buildUpdate` on a builder carrying the where-specification. -/
def updateCompile (schema : Schema) (tableName now : String) (data : Record)
    (whereSpec : List (String × WhereArg)) :
    Except String QueryBuilder.BuildResult :=
  let preparedData := prepareDataForUpdate schema now data
  let validation := validateUpdateData schema preparedData
  if ¬ validation.isValid then
    .error ("Validation failed: " ++ arrJoin ", " validation.errors)
  else
    let query := addWhereConditions (QueryBuilder.create tableName) whereSpec
    query.buildUpdate (preparedData.map (fun p => (p.1, some p.2)))

/-- A schema with timestamps enabled for the update scenario. -/
def c7Schema : Schema :=
  Schema.make
    [("id", { type := .number, primaryKey := true, autoIncrement := true }),
     ("status", { type := .string })]
    { timestamps := true, tableName := some "t" }

/-- C7: `update({status:"x"}, {id:1})` on a timestamps-enabled schema
compiles to `UPDATE t SET status = ?, updated_at = ? WHERE id = ?` with
parameters `["x", <timestamp>, 1]`: `id` and `created_at` are stripped from
the payload, `updated_at` is stamped, and — in general — every SET
parameter precedes every WHERE parameter in the compiled list. -/
theorem update_compile_scenario (now : String) :
    updateCompile c7Schema "t" now [("status", .str "x")]
        [("id", .plain (.num 1))] =
      .ok { sql := "UPDATE t SET status = ?, updated_at = ? WHERE id = ?",
            params := [.str "x", .str now, .num 1] } ∧
    (∀ (qb : QueryBuilder) (data : List (String × Option Value))
        (r : QueryBuilder.BuildResult),
      qb.buildUpdate data = .ok r →
      r.params = data.filterMap Prod.snd ++ QueryBuilder.whereParams qb._where) := by
  constructor
  · rfl
  · intro qb data r hok
    rw [QueryBuilder.buildUpdate] at hok
    split at hok
    · exact absurd hok (by simp)
    · have hr := (Except.ok.injEq _ _).mp hok
      subst hr
      rfl

/-- Witness for C7 at a concrete timestamp, also instantiating the general
SET-before-WHERE parameter ordering. -/
theorem update_compile_scenario_witness :
    updateCompile c7Schema "t" "2024-01-01T00:00:00.000Z"
        [("status", .str "x")] [("id", .plain (.num 1))] =
      .ok { sql := "UPDATE t SET status = ?, updated_at = ? WHERE id = ?",
            params := [.str "x", .str "2024-01-01T00:00:00.000Z", .num 1] } ∧
    (addWhereConditions (QueryBuilder.create "t")
        [("id", .plain (.num 1))]).buildUpdate [("status", some (.str "x"))] =
      .ok { sql := "UPDATE t SET status = ? WHERE id = ?",
            params := [.str "x", .num 1] } ∧
    [Value.str "x", Value.num 1] =
      [("status", some (Value.str "x"))].filterMap Prod.snd ++
        QueryBuilder.whereParams
          (addWhereConditions (QueryBuilder.create "t")
            [("id", .plain (.num 1))])._where := by
  have h := update_compile_scenario "2024-01-01T00:00:00.000Z"
  refine ⟨h.1, rfl, ?_⟩
  have h2 := h.2
    (addWhereConditions (QueryBuilder.create "t") [("id", .plain (.num 1))])
    [("status", some (.str "x"))]
    { sql := "UPDATE t SET status = ? WHERE id = ?",
      params := [.str "x", .num 1] } rfl
  simpa using h2

/-! ### Not-null classification behaviour -/

/-- C9: for a raw message containing a not-null-constraint violation (and
matching none of the earlier unique/duplicate/foreign-key branches), when a
`table.field` name is extractable and the schema marks that field optional,
classification returns the schema/database-mismatch message naming the
field; when the field is required or not extractable it returns the plain
missing-required-field message; the two messages are always distinct
(classification itself is a total Lean function of the message/SQL pair, so
it never throws). -/
theorem parseDbError_not_null (schema : Schema) (err sql f : String)
    (fd : FieldDefinition)
    (hnn : containsSub "not null constraint" (jsToLower err) = true)
    (hu : containsSub "unique constraint" (jsToLower err) = false)
    (hd : containsSub "duplicate" (jsToLower err) = false)
    (hfk : containsSub "foreign key constraint" (jsToLower err) = false) :
    (searchPatCapture "not null constraint failed: ".data err.data = some f →
      getEntry schema.fields f = some fd →
      fd.required = false →
      parseDbError schema err sql = schemaMismatchMsg f) ∧
    (searchPatCapture "not null constraint failed: ".data err.data = some f →
      getEntry schema.fields f = some fd →
      fd.required = true →
      parseDbError schema err sql = missingFieldMsg f) ∧
    (searchPatCapture "not null constraint failed: ".data err.data = none →
      getEntry schema.fields "required field" = none →
      parseDbError schema err sql = missingFieldMsg "required field") ∧
    (∀ g g', schemaMismatchMsg g ≠ missingFieldMsg g') := by
  refine ⟨?_, ?_, ?_, ?_⟩
  · intro hsome hfd hreq
    simp [parseDbError, hu, hd, hfk, hnn, hsome, hfd, hreq]
  · intro hsome hfd hreq
    simp [parseDbError, hu, hd, hfk, hnn, hsome, hfd, hreq]
  · intro hnone hlook
    simp [parseDbError, hu, hd, hfk, hnn, hnone, hlook]
  · intro g g' h
    have hD : (schemaMismatchMsg g).data.head? = some 'D' := rfl
    have hM : (missingFieldMsg g').data.head? = some 'M' := rfl
    have hh : (schemaMismatchMsg g).data.head? =
        (missingFieldMsg g').data.head? := by rw [h]
    rw [hD, hM] at hh
    exact absurd hh (by decide)

/-- A schema whose `nickname` field is optional, for the concrete C9
message. -/
def c9Schema : Schema :=
  Schema.make [("nickname", { type := .string, required := false })]
    { timestamps := false }

/-- Witness for C9 on a concrete not-null violation naming an
ORM-optional field. -/
theorem parseDbError_not_null_witness :
    containsSub "not null constraint"
      (jsToLower "NOT NULL constraint failed: users.nickname") = true ∧
    searchPatCapture "not null constraint failed: ".data
      "NOT NULL constraint failed: users.nickname".data = some "nickname" ∧
    getEntry c9Schema.fields "nickname" =
      some { type := .string, required := false } ∧
    parseDbError c9Schema "NOT NULL constraint failed: users.nickname"
      "INSERT INTO users (nickname) VALUES (?)" =
      schemaMismatchMsg "nickname" ∧
    parseDbError c9Schema "NOT NULL constraint failed: users.other"
      "INSERT INTO users (other) VALUES (?)" = missingFieldMsg "other" := by
  have h := parseDbError_not_null c9Schema
    "NOT NULL constraint failed: users.nickname"
    "INSERT INTO users (nickname) VALUES (?)" "nickname"
    { type := .string, required := false }
    (by decide) (by decide) (by decide) (by decide)
  refine ⟨by decide, by decide, rfl, ?_, ?_⟩
  · exact h.1 (by decide) rfl rfl
  · rfl

end D1
